import Mathlib

/-!
Shallow embedding of the ufabc-so-vmm paged virtual-memory simulator.

The embedding follows the Rust sources:
  - src/vm/src/page_table.rs       (PageTableEntry, PageTable)
  - src/vm/src/page_replacer.rs    (PageEvent, FIFOPageReplacer)
  - src/vm/src/page_loader.rs      (PageLoader trait)
  - src/vm/src/mmu.rs              (Mmu: translate_addr, handle_page_fault, read, write)
  - src/project-demo/src/file_page_loader.rs (SwapFileHeader, SwapFilePageLoader)

Machine integers (usize, u8) are modelled as Nat; fixed-size Rust arrays and
slices are modelled as Lists; a Rust panic (unwrap, assert, out-of-bounds
index) is modelled as the Option value none.  Calls that the Mmu makes to
PageLoader.flush_page are additionally surfaced as an explicit event trace so
that claims about flushes are statable; the trace mirrors exactly the call
sites present in mmu.rs.
-/

/-- Entry of the page table, from page_table.rs: the frame the page occupies
plus the dirty flag. -/
structure PageTableEntry where
  frame_index : Nat
  dirty : Bool
deriving DecidableEq, Repr

/-- The page table of page_table.rs: an array of PAGE_TABLE_SIZE optional
entries; none means the page is not resident. -/
abbrev PageTable := List (Option PageTableEntry)

/-- PageTable::new - an empty table of the given size. -/
def PageTable.new (size : Nat) : PageTable :=
  List.replicate size none

/-- PageTable::set - installs a clean entry for page_number (Rust array store;
an index out of bounds panics in Rust, List.set is a no-op, reachable states
in the claims keep indices in bounds). -/
def PageTable.set (t : PageTable) (page_number frame_index : Nat) : PageTable :=
  List.set t page_number (some { frame_index := frame_index, dirty := false })

/-- PageTable::get - looks an entry up. -/
def PageTable.get (t : PageTable) (page_number : Nat) : Option PageTableEntry :=
  (t[page_number]?).join

/-- PageTable::invalidate - clears an entry back to absent. -/
def PageTable.invalidate (t : PageTable) (page_number : Nat) : PageTable :=
  List.set t page_number none

/-- PageTable::mark_dirty - sets the dirty flag; the Rust code unwraps, so an
absent entry is a panic, modelled by none. -/
def PageTable.mark_dirty (t : PageTable) (idx : Nat) : Option PageTable :=
  match PageTable.get t idx with
  | none => none
  | some e => some (List.set t idx (some { e with dirty := true }))

/-- Page events fired by the Mmu, from page_replacer.rs. -/
inductive PageEvent where
  | Touched (page : Nat)
  | Loaded (page : Nat)
deriving DecidableEq, Repr

/-- State of FIFOPageReplacer: the VecDeque of page numbers, front first. -/
abbrev FIFOPageReplacer := List Nat

/-- FIFOPageReplacer::page_event - a Loaded page is pushed to the back of the
queue, Touched events are ignored. -/
def FIFOPageReplacer.page_event (q : FIFOPageReplacer) (event : PageEvent) : FIFOPageReplacer :=
  match event with
  | PageEvent.Loaded idx => q ++ [idx]
  | PageEvent.Touched _ => q

/-- FIFOPageReplacer::pick_replacement_page - pops the front of the queue; the
Rust code unwraps, so an empty queue is a panic, modelled by none. -/
def FIFOPageReplacer.pick_replacement_page (q : FIFOPageReplacer) : Option (Nat × FIFOPageReplacer) :=
  match q with
  | [] => none
  | p :: rest => some (p, rest)

/-- Interface of page_loader.rs, as a record of pure operations over a loader
state of type L.  load_page_into receives the current bytes of the target
frame window and returns the window as the loader leaves it; flush_page
returns the updated loader state. -/
structure PageLoader (L : Type) where
  load_page_into : L → Nat → List Nat → L × List Nat
  flush_page : L → Nat → List Nat → L

/-- Compile-time parameters of the Mmu type: MEM_SIZE, FRAME_COUNT and
PAGE_COUNT const generics of mmu.rs. -/
structure MmuCfg where
  MEM_SIZE : Nat
  FRAME_COUNT : Nat
  PAGE_COUNT : Nat
deriving DecidableEq, Repr

/-- Mutable state of the Mmu struct (mmu.rs), with the replacer fixed to the
repository's FIFOPageReplacer and the loader state abstract. -/
structure Mmu (L : Type) where
  memory : List Nat
  free_frames : List Nat
  page_table : PageTable
  replacer : FIFOPageReplacer
  loader : L
  hits : Nat
  misses : Nat
deriving DecidableEq, Repr

/-- Mmu::new - zeroed memory, all frames free, empty table and queue. -/
def Mmu.new (cfg : MmuCfg) {L : Type} (loader : L) : Mmu L :=
  { memory := List.replicate cfg.MEM_SIZE 0
    free_frames := List.range cfg.FRAME_COUNT
    page_table := PageTable.new cfg.PAGE_COUNT
    replacer := []
    loader := loader
    hits := 0
    misses := 0 }

/-- Size of one frame: MEM_SIZE / FRAME_COUNT, as in Mmu::frame_idx_to_range. -/
def frame_size (cfg : MmuCfg) : Nat :=
  cfg.MEM_SIZE / cfg.FRAME_COUNT

/-- Mmu::frame_idx_to_range - the half-open byte range of a frame. -/
def frame_idx_to_range (cfg : MmuCfg) (frame_idx : Nat) : Nat × Nat :=
  (frame_idx * frame_size cfg, (frame_idx + 1) * frame_size cfg)

/-- Bytes of the memory window denoted by frame_idx_to_range (the Rust slice
memory[frame_range]). -/
def frame_window (cfg : MmuCfg) (memory : List Nat) (frame_idx : Nat) : List Nat :=
  (memory.drop (frame_idx * frame_size cfg)).take (frame_size cfg)

/-- Writes a run of bytes into memory starting at position start (mutation of
the Rust slice in place). -/
def setBytes (memory : List Nat) (start : Nat) (bytes : List Nat) : List Nat :=
  match bytes with
  | [] => memory
  | b :: rest => setBytes (memory.set start b) (start + 1) rest

/-- Page number extracted by Mmu::translate_addr: the address is truncated to
16 bits and its top 8 bits are the page number. -/
def page_number_of (address : Nat) : Nat :=
  ((address &&& 0xFFFF) &&& 0xFF00) >>> 8

/-- Page offset extracted by Mmu::translate_addr: the bottom 8 bits of the
truncated address. -/
def page_offset_of (address : Nat) : Nat :=
  (address &&& 0xFFFF) &&& 0x00FF

/-- Mmu::handle_page_fault.  Returns the chosen frame index, the successor
state and the list of flush_page calls made (page number and bytes passed),
or none where the Rust code panics (empty replacer queue, or victim absent
from the table).  NOTE (faithful to the source, mmu.rs line 134): after
picking an eviction victim the code invalidates page_number - the page being
faulted in, which is absent - rather than the victim evicted_page_idx. -/
def Mmu.handle_page_fault {L : Type} (cfg : MmuCfg) (ops : PageLoader L)
    (m : Mmu L) (page_number : Nat) : Option (Nat × Mmu L × List (Nat × List Nat)) :=
  let picked : Option (Nat × Mmu L × List (Nat × List Nat)) :=
    match m.free_frames with
    | empty_idx :: restFree =>
        some (empty_idx, { m with free_frames := restFree }, [])
    | [] =>
        match FIFOPageReplacer.pick_replacement_page m.replacer with
        | none => none
        | some (evicted_page_idx, restQueue) =>
            match PageTable.get m.page_table evicted_page_idx with
            | none => none
            | some evicted_page =>
                let frame := frame_window cfg m.memory evicted_page.frame_index
                let (loader1, flushes) :=
                  if evicted_page.dirty then
                    (ops.flush_page m.loader evicted_page_idx frame, [(evicted_page_idx, frame)])
                  else
                    (m.loader, [])
                let idx := evicted_page.frame_index
                let table1 := PageTable.invalidate m.page_table page_number
                some (idx, { m with replacer := restQueue, loader := loader1, page_table := table1 }, flushes)
  match picked with
  | none => none
  | some (frame_idx, m1, flushes) =>
      let table2 := PageTable.set m1.page_table page_number frame_idx
      let window := frame_window cfg m1.memory frame_idx
      let (loader2, newBytes) := ops.load_page_into m1.loader page_number window
      let memory2 := setBytes m1.memory (frame_idx * frame_size cfg) (newBytes.take (frame_size cfg))
      let queue2 := FIFOPageReplacer.page_event m1.replacer (PageEvent.Loaded page_number)
      some (frame_idx, { m1 with page_table := table2, memory := memory2, loader := loader2, replacer := queue2 }, flushes)

/-- Mmu::translate_addr.  Returns the frame byte range, the page offset, the
successor state and the flush trace, or none where the Rust code panics. -/
def Mmu.translate_addr {L : Type} (cfg : MmuCfg) (ops : PageLoader L)
    (m : Mmu L) (address : Nat) (markDirty : Bool) :
    Option ((Nat × Nat) × Nat × Mmu L × List (Nat × List Nat)) :=
  let page_number := page_number_of address
  let page_offset := page_offset_of address
  let resolved : Option (Nat × Mmu L × List (Nat × List Nat)) :=
    match PageTable.get m.page_table page_number with
    | some entry =>
        some (entry.frame_index, { m with hits := m.hits + 1 }, [])
    | none =>
        Mmu.handle_page_fault cfg ops { m with misses := m.misses + 1 } page_number
  match resolved with
  | none => none
  | some (frame_idx, m1, flushes) =>
      let table? := if markDirty then PageTable.mark_dirty m1.page_table page_number else some m1.page_table
      match table? with
      | none => none
      | some table2 =>
          let m2 := { m1 with page_table := table2,
                              replacer := FIFOPageReplacer.page_event m1.replacer (PageEvent.Touched page_number) }
          some (frame_idx_to_range cfg frame_idx, page_offset, m2, flushes)

/-- Mmu::read - translate, then index the frame slice at the page offset
(indexing past the slice panics in Rust, hence none). -/
def Mmu.read {L : Type} (cfg : MmuCfg) (ops : PageLoader L) (m : Mmu L) (address : Nat) :
    Option (Nat × Mmu L × List (Nat × List Nat)) :=
  match Mmu.translate_addr cfg ops m address false with
  | none => none
  | some (range, page_offset, m1, flushes) =>
      let frame := (m1.memory.drop range.1).take (range.2 - range.1)
      match frame[page_offset]? with
      | none => none
      | some v => some (v, m1, flushes)

/-- Mmu::write - translate with mark_dirty, then store the byte at the page
offset inside the frame slice. -/
def Mmu.write {L : Type} (cfg : MmuCfg) (ops : PageLoader L) (m : Mmu L) (address value : Nat) :
    Option (Mmu L × List (Nat × List Nat)) :=
  match Mmu.translate_addr cfg ops m address true with
  | none => none
  | some (range, page_offset, m1, flushes) =>
      let frame := (m1.memory.drop range.1).take (range.2 - range.1)
      match frame[page_offset]? with
      | none => none
      | some _ => some ({ m1 with memory := m1.memory.set (range.1 + page_offset) value }, flushes)

/-- One operation issued to the Mmu by the demo driver. -/
inductive Op where
  | read (address : Nat)
  | write (address value : Nat)
deriving DecidableEq, Repr

/-- Runs a list of operations, threading the Mmu state; none if any step
panics. -/
def Mmu.run {L : Type} (cfg : MmuCfg) (ops : PageLoader L) (m : Mmu L) : List Op → Option (Mmu L)
  | [] => some m
  | Op.read a :: rest =>
      match Mmu.read cfg ops m a with
      | none => none
      | some (_, m1, _) => Mmu.run cfg ops m1 rest
  | Op.write a v :: rest =>
      match Mmu.write cfg ops m a v with
      | none => none
      | some (m1, _) => Mmu.run cfg ops m1 rest

/-- Loader that zero-fills every loaded page and discards flushes: the
behaviour of a swap file in which no page was ever persisted (and the
observable part of the demo StubPageLoader up to fill value). -/
def zeroLoader : PageLoader Unit :=
  { load_page_into := fun u _ target => (u, List.replicate target.length 0)
    flush_page := fun u _ _ => u }

/-- Little-endian decoding of a list of bytes (usize::from_le_bytes). -/
def leDecode (bytes : List Nat) : Nat :=
  match bytes with
  | [] => 0
  | b :: rest => b + 256 * leDecode rest

/-- Little-endian encoding of a value into 8 bytes (usize::to_le_bytes). -/
def leEncode (n : Nat) : List Nat :=
  (List.range 8).map (fun i => n / 256 ^ i % 256)

/-- Size in bytes of SwapFileHeader of N pages under repr(C) with 8-byte
usize: two usize fields plus N usize index entries. -/
def header_size (N : Nat) : Nat :=
  16 + 8 * N

/-- In-memory copy of the parsed SwapFileHeader (file_page_loader.rs). -/
structure SwapFileHeader where
  n_pages : Nat
  page_size : Nat
  indices : List Nat
deriving DecidableEq, Repr

/-- State of SwapFilePageLoader: the backing file's bytes and the cached
header. -/
structure SwapFilePageLoader where
  file : List Nat
  header : SwapFileHeader
deriving DecidableEq, Repr

/-- Reads len bytes of the file starting at pos; past end of file, fewer
bytes come back (File::read semantics). -/
def fileRead (file : List Nat) (pos len : Nat) : List Nat :=
  (file.drop pos).take len

/-- Writes bytes into the file at pos, zero-padding any gap up to pos and
extending the file as needed (File::write after a seek). -/
def fileWrite (file : List Nat) (pos : Nat) (bytes : List Nat) : List Nat :=
  let padded := file ++ List.replicate (pos - file.length) 0
  padded.take pos ++ bytes ++ padded.drop (pos + bytes.length)

/-- SwapFilePageLoader::parse_header - decodes n_pages, asserts it equals the
const generic N (assert_eq panics on mismatch: none), then decodes page_size
and the N index entries.  A file without a complete header fails construction
in Rust (read_exact error or a garbage n_pages failing the assert); both are
modelled by none. -/
def SwapFilePageLoader.parse_header (N : Nat) (file : List Nat) : Option SwapFileHeader :=
  if file.length < header_size N then
    none
  else
    let n_pages := leDecode (fileRead file 0 8)
    if n_pages = N then
      let page_size := leDecode (fileRead file 8 8)
      let indices := (List.range N).map (fun i => leDecode (fileRead file (16 + 8 * i) 8))
      some { n_pages := n_pages, page_size := page_size, indices := indices }
    else
      none

/-- SwapFilePageLoader::new - opens the file and parses and caches the
header. -/
def SwapFilePageLoader.new (N : Nat) (file : List Nat) : Option SwapFilePageLoader :=
  match SwapFilePageLoader.parse_header N file with
  | none => none
  | some header => some { file := file, header := header }

/-- SwapFilePageLoader::load_page_into - if the cached index entry of the page
is 0 the target is zero-filled without touching the file; otherwise seek to
header_size + (index - 1) * page_size and read up to target.length bytes into
the front of the target.  Returns the new target bytes together with the list
of (position, length) file reads performed; none models the Rust panic on a
page number outside the indices array. -/
def SwapFilePageLoader.load_page_into (N : Nat) (ldr : SwapFilePageLoader)
    (page_number : Nat) (target : List Nat) : Option (List Nat × List (Nat × Nat)) :=
  match ldr.header.indices[page_number]? with
  | none => none
  | some idx =>
      if idx = 0 then
        some (target.map (fun _ => 0), [])
      else
        let starting_idx := header_size N
        let offset := (idx - 1) * ldr.header.page_size
        let data := fileRead ldr.file (starting_idx + offset) target.length
        some (data ++ target.drop data.length, [(starting_idx + offset, target.length)])

/-- SwapFilePageLoader::flush_page.  First flush of a page derives the fresh
slot number from the current file length: cur_idx = (file_length -
header_size) / 4 - the literal constant 4 of the source, not page_size -
appends the buffer at end of file and persists index cur_idx + 1 into the
header bytes at offset 16 + 8 * page_number; a later flush of an indexed page
overwrites its slot at header_size + (index - 1) * page_size in place. -/
def SwapFilePageLoader.flush_page (N : Nat) (ldr : SwapFilePageLoader)
    (page_number : Nat) (buffer : List Nat) : Option SwapFilePageLoader :=
  match ldr.header.indices[page_number]? with
  | none => none
  | some idx =>
      if idx = 0 then
        let offset := header_size N
        let cur_position := ldr.file.length
        let cur_position := cur_position - offset
        let cur_idx := cur_position / 4
        let new_idx := cur_idx + 1
        let file1 := fileWrite ldr.file ldr.file.length buffer
        let indices1 := ldr.header.indices.set page_number new_idx
        let indices_offset := 2 * 8 + page_number * 8
        let file2 := fileWrite file1 indices_offset (leEncode new_idx)
        some { file := file2, header := { ldr.header with indices := indices1 } }
      else
        let starting_idx := header_size N
        let offset := (idx - 1) * ldr.header.page_size
        some { file := fileWrite ldr.file (starting_idx + offset) buffer, header := ldr.header }

/-- Demo-scaled configuration with a single frame of 8 bytes and two pages,
used to exercise the eviction path with the smallest possible state. -/
def cfgA : MmuCfg := { MEM_SIZE := 8, FRAME_COUNT := 1, PAGE_COUNT := 4 }

/-- Fresh Mmu over cfgA with the zero-filling loader. -/
def mmuA : Mmu Unit := Mmu.new cfgA ()

/-- State after reading one byte of page 0 and then one byte of page 1: the
first read drains the single free frame, the second read faults and must
evict page 0. -/
def evictionRun : Option (Mmu Unit) :=
  Mmu.run cfgA zeroLoader mmuA [Op.read 0x000, Op.read 0x100]

/-- Operations for the C6 scenario: load page 0, let page 1 evict it (page 0
stays stale-resident), write 5 to address 5 via the stale entry, then fault
page 2, which evicts page 1 and reuses frame 0. -/
def c6_sequence : List Op := [Op.read 0x000, Op.read 0x100, Op.write 0x005 5, Op.read 0x200]

/-- A freshly formatted swap file for 2 pages of 8 bytes: header only, both
index entries 0, no slots. -/
def c2file : List Nat := leEncode 2 ++ leEncode 8 ++ leEncode 0 ++ leEncode 0

/-- Page contents used in the round-trip scenario. -/
def c2contentA : List Nat := List.replicate 8 5

/-- Content flushed for page 1 - the flush whose round-trip fails. -/
def c2contentB : List Nat := List.replicate 8 7

/-- Round trip of the C2 scenario: flush page 0, flush page 1, reopen the
resulting file with a fresh loader, load page 1 into a zeroed buffer. -/
def c2_roundtrip : Option (List Nat) :=
  (SwapFilePageLoader.new 2 c2file).bind fun l0 =>
  (SwapFilePageLoader.flush_page 2 l0 0 c2contentA).bind fun l1 =>
  (SwapFilePageLoader.flush_page 2 l1 1 c2contentB).bind fun l2 =>
  (SwapFilePageLoader.new 2 l2.file).bind fun l3 =>
  (SwapFilePageLoader.load_page_into 2 l3 1 (List.replicate 8 0)).map fun r => r.1

/-- Mmu state over cfgA after a single read of page 0: page 0 resident and
clean in frame 0, the free pool drained, the FIFO queue holding [0]. -/
def mDemo : Mmu Unit :=
  { memory := List.replicate 8 0
    free_frames := []
    page_table := [some { frame_index := 0, dirty := false }, none, none, none]
    replacer := [0]
    loader := ()
    hits := 0
    misses := 1 }

/-- State produced by writing the byte 5 at address 5 from mDemo: page 0 is
now dirty and memory byte 5 holds 5. -/
def mDirty : Mmu Unit :=
  { memory := [0, 0, 0, 0, 0, 5, 0, 0]
    free_frames := []
    page_table := [some { frame_index := 0, dirty := true }, none, none, none]
    replacer := [0]
    loader := ()
    hits := 1
    misses := 1 }

/-- C1: in the fault triggered by the second read, the replacer picked page 0
as the victim (its number left the queue, which ends as [1]), yet page 0 is
still present in the page table afterwards: mmu.rs line 134 invalidates
page_number, the already-absent faulting page, instead of evicted_page_idx,
so the evicted victim stays resident. -/
theorem c1_victim_still_resident :
    evictionRun.map (fun m => (PageTable.get m.page_table 0, m.replacer)) =
      some (some { frame_index := 0, dirty := false }, [1]) := by
  decide

/-- C3: after the same two reads, pages 0 and 1 are both present in the page
table and both carry frame_index 0, violating the frame-exclusivity
invariant in a state reachable from a fresh Mmu by two reads. -/
theorem c3_two_pages_share_frame :
    evictionRun.map (fun m => (PageTable.get m.page_table 0, PageTable.get m.page_table 1)) =
      some (some { frame_index := 0, dirty := false },
            some { frame_index := 0, dirty := false }) := by
  decide

/-- C4 counterexample: with PAGE_COUNT = 1 (an instantiation the claim
quantifies over), address 0x100 translates to page number 1, which is not
within the page table's bounds. -/
theorem c4_page_number_out_of_bounds :
    ¬ (page_number_of 0x100 < (MmuCfg.mk 256 1 1).PAGE_COUNT) := by
  decide

/-- C4 amended: whenever the Mmu is instantiated with PAGE_COUNT at least 256
(as the repository's demo is, with PAGE_COUNT = 256), every address
translates to a page number within the page table's bounds, because the
truncated page number is always below 256. -/
theorem c4_page_number_in_bounds (cfg : MmuCfg) (h : 256 ≤ cfg.PAGE_COUNT)
    (address : Nat) : page_number_of address < cfg.PAGE_COUNT := by
  have h1 : ((address &&& 0xFFFF) &&& 0xFF00) ≤ 0xFF00 := Nat.and_le_right
  have h2 : page_number_of address = ((address &&& 0xFFFF) &&& 0xFF00) / 2 ^ 8 := by
    rw [page_number_of, Nat.shiftRight_eq_div_pow]
  have h3 : ((address &&& 0xFFFF) &&& 0xFF00) / 2 ^ 8 ≤ 0xFF00 / 2 ^ 8 :=
    Nat.div_le_div_right h1
  have h4 : page_number_of address < 256 := by
    rw [h2]
    exact Nat.lt_of_le_of_lt h3 (by norm_num)
  exact Nat.lt_of_lt_of_le h4 h

/-- Witness for c4_page_number_in_bounds at the demo configuration and the
address 0xCAFE of the spec scenario. -/
theorem c4_page_number_in_bounds_witness :
    256 ≤ (MmuCfg.mk 65536 256 256).PAGE_COUNT ∧
      page_number_of 0xCAFE < (MmuCfg.mk 65536 256 256).PAGE_COUNT :=
  ⟨by decide, c4_page_number_in_bounds (MmuCfg.mk 65536 256 256) (by decide) 0xCAFE⟩

/-- C6: immediately after the write, reading address 5 does return 5; but
after the additional read of page 2 - an operation whose eviction victim is
page 1, not page 0 - reading address 5 returns 0 instead of the written 5:
the fault reused frame 0, which the stale entry of page 0 still points at,
so the write is lost without page 0 ever being the eviction victim. -/
theorem c6_lost_write :
    ((Mmu.run cfgA zeroLoader mmuA (c6_sequence.take 3)).bind fun m =>
        (Mmu.read cfgA zeroLoader m 0x005).map (fun r => r.1)) = some 5 ∧
    ((Mmu.run cfgA zeroLoader mmuA c6_sequence).bind fun m =>
        (Mmu.read cfgA zeroLoader m 0x005).map (fun r => r.1)) = some 0 ∧
    (0 : Nat) ≠ 5 := by
  decide

/-- C7: before the third fault the FIFO queue is [1], so
pick_replacement_page returns page 1 and the fault evicts it; but page 0 is
still a present page-table entry and was loaded before page 1, so the evicted
page is not the currently-resident page loaded furthest in the past. -/
theorem c7_fifo_picks_non_oldest_resident :
    (evictionRun.map fun m => (m.replacer, PageTable.get m.page_table 0)) =
      some ([1], some { frame_index := 0, dirty := false }) ∧
    FIFOPageReplacer.pick_replacement_page [1] = some (1, []) ∧
    (evictionRun.bind fun m => Mmu.handle_page_fault cfgA zeroLoader m 2).map
        (fun r => (r.1, r.2.2)) = some (0, []) := by
  decide

/-- C2: the round trip loses page 1's content.  flush_page computed the fresh
slot number as (file_length - header_size) / 4 + 1 = 3 although the data went
to slot 1, so the reopening loader seeks past end of file and the target
buffer keeps its prior zeros instead of receiving the flushed bytes. -/
theorem c2_roundtrip_fails :
    c2_roundtrip = some (List.replicate 8 0) ∧ List.replicate 8 0 ≠ c2contentB := by
  decide

/-- C8: whenever the cached header index entry of a page is 0, loading that
page fills the whole target with zero bytes and performs no file read. -/
theorem c8_never_persisted_loads_zeros (N : Nat) (ldr : SwapFilePageLoader)
    (page_number : Nat) (target : List Nat)
    (h : ldr.header.indices[page_number]? = some 0) :
    SwapFilePageLoader.load_page_into N ldr page_number target =
      some (List.replicate target.length 0, []) := by
  simp only [SwapFilePageLoader.load_page_into, h]
  simp [List.map_const]

/-- Witness for c8_never_persisted_loads_zeros on the fresh 2-page swap
file's loader and a 3-byte target. -/
theorem c8_never_persisted_loads_zeros_witness :
    (SwapFilePageLoader.mk c2file (SwapFileHeader.mk 2 8 [0, 0])).header.indices[1]? = some 0 ∧
    SwapFilePageLoader.load_page_into 2
        (SwapFilePageLoader.mk c2file (SwapFileHeader.mk 2 8 [0, 0])) 1 [1, 2, 3] =
      some (List.replicate 3 0, []) :=
  ⟨by decide,
   c8_never_persisted_loads_zeros 2
     (SwapFilePageLoader.mk c2file (SwapFileHeader.mk 2 8 [0, 0])) 1 [1, 2, 3] (by decide)⟩

/-- C9: for a file holding a complete header, construction fails exactly when
the decoded n_pages field differs from the configured page count N, and on a
match it succeeds caching page_size and the indices array decoded from the
header bytes. -/
theorem c9_header_validation (N : Nat) (file : List Nat)
    (hlen : header_size N ≤ file.length) :
    (leDecode (fileRead file 0 8) ≠ N → SwapFilePageLoader.new N file = none) ∧
    (leDecode (fileRead file 0 8) = N →
      SwapFilePageLoader.new N file =
        some { file := file
               header := { n_pages := N
                           page_size := leDecode (fileRead file 8 8)
                           indices := (List.range N).map
                             (fun i => leDecode (fileRead file (16 + 8 * i) 8)) } }) := by
  constructor
  · intro hne
    simp only [SwapFilePageLoader.new, SwapFilePageLoader.parse_header,
      if_neg (Nat.not_lt.mpr hlen), if_neg hne]
  · intro heq
    simp only [SwapFilePageLoader.new, SwapFilePageLoader.parse_header,
      if_neg (Nat.not_lt.mpr hlen), if_pos heq, heq, if_true]

/-- Witness for c9_header_validation: opening the fresh 2-page file with a
mismatched count 1 fails, opening it with the matching count 2 succeeds and
caches page_size 8 and indices [0, 0]. -/
theorem c9_header_validation_witness :
    SwapFilePageLoader.new 1 c2file = none ∧
    SwapFilePageLoader.new 2 c2file =
      some { file := c2file
             header := { n_pages := 2
                         page_size := leDecode (fileRead c2file 8 8)
                         indices := (List.range 2).map
                           (fun i => leDecode (fileRead c2file (16 + 8 * i) 8)) } } :=
  ⟨(c9_header_validation 1 c2file (by decide)).1 (by decide),
   (c9_header_validation 2 c2file (by decide)).2 (by decide)⟩


/-- Truncating to 16 bits by masking equals reduction modulo 65536. -/
theorem and_FFFF_eq_mod (a : Nat) : a &&& 0xFFFF = a % 65536 := by
  have h := Nat.and_pow_two_sub_one_eq_mod a 16
  norm_num at h
  exact h

/-- The page number only depends on the address modulo 65536. -/
theorem page_number_of_mod (a : Nat) : page_number_of (a % 65536) = page_number_of a := by
  unfold page_number_of
  rw [and_FFFF_eq_mod, and_FFFF_eq_mod, Nat.mod_mod]

/-- The page offset only depends on the address modulo 65536. -/
theorem page_offset_of_mod (a : Nat) : page_offset_of (a % 65536) = page_offset_of a := by
  unfold page_offset_of
  rw [and_FFFF_eq_mod, and_FFFF_eq_mod, Nat.mod_mod]

/-- Every translated page number fits in 8 bits. -/
theorem page_number_of_lt (a : Nat) : page_number_of a < 256 := by
  have h1 : ((a &&& 0xFFFF) &&& 0xFF00) ≤ 0xFF00 := Nat.and_le_right
  have h2 : page_number_of a = ((a &&& 0xFFFF) &&& 0xFF00) / 2 ^ 8 := by
    rw [page_number_of, Nat.shiftRight_eq_div_pow]
  rw [h2]
  exact Nat.lt_of_le_of_lt (Nat.div_le_div_right h1) (by norm_num)

/-- Every translated page offset fits in 8 bits. -/
theorem page_offset_of_lt (a : Nat) : page_offset_of a < 256 :=
  Nat.lt_of_le_of_lt (Nat.and_le_right) (by norm_num)

/-- A successful mark_dirty leaves the marked page present with its dirty
flag set. -/
theorem mark_dirty_get {t t2 : PageTable} {p : Nat}
    (h : PageTable.mark_dirty t p = some t2) :
    ∃ e : PageTableEntry, PageTable.get t2 p = some e ∧ e.dirty = true := by
  unfold PageTable.mark_dirty at h
  cases hg : PageTable.get t p with
  | none => rw [hg] at h; exact absurd h (by simp)
  | some e =>
    rw [hg] at h
    have hlt : p < t.length := by
      have hj := Option.join_eq_some.mp hg
      exact (List.getElem?_eq_some_iff.mp hj).1
    refine ⟨{ e with dirty := true }, ?_, rfl⟩
    have := Option.some.inj h
    rw [← this]
    unfold PageTable.get
    rw [List.getElem?_set_self hlt]
    rfl

/-- A successful Mmu.write leaves the written page's entry dirty: translation
runs with mark_dirty set, and the later memory store does not touch the
table. -/
theorem write_marks_dirty {L : Type} (ops : PageLoader L) (cfg : MmuCfg) (m : Mmu L)
    (a v : Nat) (m1 : Mmu L) (tr : List (Nat × List Nat))
    (hw : Mmu.write cfg ops m a v = some (m1, tr)) :
    ∃ e : PageTableEntry,
      PageTable.get m1.page_table (page_number_of a) = some e ∧ e.dirty = true := by
  simp only [Mmu.write] at hw
  split at hw
  · exact absurd hw (by simp)
  · rename_i range off mT fl heq
    split at hw
    · exact absurd hw (by simp)
    · rename_i b hb
      have hm1 : m1.page_table = mT.page_table := by
        cases hw
        rfl
      simp only [Mmu.translate_addr] at heq
      split at heq
      · exact absurd heq (by simp)
      · rename_i fi mA flA hres
        simp only [if_true] at heq
        split at heq
        · exact absurd heq (by simp)
        · rename_i tbl htbl
          have : mT.page_table = tbl := by
            cases heq
            rfl
          rw [hm1, this]
          obtain ⟨e, he, hd⟩ := mark_dirty_get htbl
          exact ⟨e, he, hd⟩

/-- On a fault with no free frame, the fault handler reuses the frame of the
page picked by the replacer and calls flush_page exactly once - with the
victim's page number and the victim frame's pre-overwrite bytes - when the
victim is dirty, and never when it is clean. -/
theorem handle_page_fault_flush_trace {L : Type} (ops : PageLoader L) (cfg : MmuCfg)
    (m : Mmu L) (p victim : Nat) (restQueue : List Nat) (e : PageTableEntry)
    (hff : m.free_frames = []) (hrep : m.replacer = victim :: restQueue)
    (hget : PageTable.get m.page_table victim = some e) :
    (Mmu.handle_page_fault cfg ops m p).map (fun r => (r.1, r.2.2)) =
      some (e.frame_index,
        if e.dirty then [(victim, frame_window cfg m.memory e.frame_index)] else []) := by
  simp only [Mmu.handle_page_fault, hff, hrep, FIFOPageReplacer.pick_replacement_page, hget]
  cases he : e.dirty <;> simp [he]

/-- C5: a write to an address sets the dirty flag of that address's
page-table entry; a fault that evicts a dirty page makes exactly one
flush_page call, passing the victim's page number and the victim frame's
bytes as they are before the new page's load overwrites them; a fault that
evicts a clean page makes no flush_page call. -/
theorem c5_write_dirty_and_eviction_flush {L : Type} (ops : PageLoader L)
    (cfg : MmuCfg) (m : Mmu L) :
    (∀ a v m1 tr, Mmu.write cfg ops m a v = some (m1, tr) →
      ∃ e : PageTableEntry,
        PageTable.get m1.page_table (page_number_of a) = some e ∧ e.dirty = true) ∧
    (∀ p victim restQueue e, m.free_frames = [] → m.replacer = victim :: restQueue →
      PageTable.get m.page_table victim = some e →
      (Mmu.handle_page_fault cfg ops m p).map (fun r => (r.1, r.2.2)) =
        some (e.frame_index,
          if e.dirty then [(victim, frame_window cfg m.memory e.frame_index)] else [])) :=
  ⟨fun a v m1 tr hw => write_marks_dirty ops cfg m a v m1 tr hw,
   fun p victim restQueue e hff hrep hget =>
     handle_page_fault_flush_trace ops cfg m p victim restQueue e hff hrep hget⟩

/-- Witness for c5_write_dirty_and_eviction_flush: writing 5 at address 5 on
mDemo yields mDirty with page 0 dirty; a fault on page 1 from mDirty flushes
exactly (0, [0,0,0,0,0,5,0,0]); the same fault from the clean mDemo flushes
nothing. -/
theorem c5_write_dirty_and_eviction_flush_witness :
    Mmu.write cfgA zeroLoader mDemo 5 5 = some (mDirty, []) ∧
    (∃ e : PageTableEntry,
      PageTable.get mDirty.page_table (page_number_of 5) = some e ∧ e.dirty = true) ∧
    (Mmu.handle_page_fault cfgA zeroLoader mDirty 1).map (fun r => (r.1, r.2.2)) =
      some (0, [(0, [0, 0, 0, 0, 0, 5, 0, 0])]) ∧
    (Mmu.handle_page_fault cfgA zeroLoader mDemo 1).map (fun r => (r.1, r.2.2)) =
      some (0, []) := by
  refine ⟨by decide, ?_, ?_, ?_⟩
  · exact (c5_write_dirty_and_eviction_flush zeroLoader cfgA mDemo).1 5 5 mDirty [] (by decide)
  · have h := (c5_write_dirty_and_eviction_flush zeroLoader cfgA mDirty).2 1 0 []
      { frame_index := 0, dirty := true } rfl rfl (by decide)
    simpa using h
  · have h := (c5_write_dirty_and_eviction_flush zeroLoader cfgA mDemo).2 1 0 []
      { frame_index := 0, dirty := false } rfl rfl (by decide)
    simpa using h

/-- C10: reads and writes see only the address truncated to 16 bits - they
behave identically at address a and at a mod 65536, for every configuration
and state - and the truncated address splits into an 8-bit page number and an
8-bit offset. -/
theorem c10_address_truncation {L : Type} (ops : PageLoader L) (cfg : MmuCfg)
    (m : Mmu L) (a v : Nat) :
    Mmu.read cfg ops m a = Mmu.read cfg ops m (a % 65536) ∧
    Mmu.write cfg ops m a v = Mmu.write cfg ops m (a % 65536) v ∧
    page_number_of a < 256 ∧ page_offset_of a < 256 := by
  refine ⟨?_, ?_, page_number_of_lt a, page_offset_of_lt a⟩
  · simp only [Mmu.read, Mmu.translate_addr, page_number_of_mod, page_offset_of_mod]
  · simp only [Mmu.write, Mmu.translate_addr, page_number_of_mod, page_offset_of_mod]
